import Mathlib

/-!
Verification of the workout step codec in `src/workoutEditor.ts`
(garmin-workout-editor).

The shallow embedding models JS numbers as `ℚ`, absent/`null`/`undefined`
fields as `none`, and the dynamic `RepeatGroupDTO` / `ExecutableStepDTO`
tagging as an inductive type. Each definition mirrors the correspondingly
named function of `WorkoutEditor`.
-/

namespace GarminWE

/-- JS `Math.round`: round half toward positive infinity,
`Math.round x = floor (x + 1/2)`. -/
def jsRound (q : ℚ) : ℚ := ((⌊q + 1/2⌋ : ℤ) : ℚ)

/-- The native-unit conversion constant 453.59237 (grams per pound). -/
def gramsPerPound : ℚ := 45359237 / 100000

/-- Truthiness of an optional JS string: `undefined` and `""` are falsy. -/
def strTruthy : Option String → Bool
  | some s => s ≠ ""
  | none => false

/-- Wire `stepType` descriptor `{ stepTypeId, stepTypeKey }`. -/
structure WireStepType where
  stepTypeId : Int
  stepTypeKey : Option String
  deriving DecidableEq, Repr

/-- Wire `endCondition` descriptor `{ conditionTypeId, conditionTypeKey }`. -/
structure WireEndCondition where
  conditionTypeId : Int
  conditionTypeKey : Option String
  deriving DecidableEq, Repr

/-- Wire `targetType` descriptor `{ workoutTargetTypeId, workoutTargetTypeKey }`. -/
structure WireTargetType where
  workoutTargetTypeId : Int
  workoutTargetTypeKey : Option String
  deriving DecidableEq, Repr

/-- Wire `weightUnit` descriptor `{ unitId, unitKey, factor }`. -/
structure WireWeightUnit where
  unitId : Option Int
  unitKey : Option String
  factor : Option ℚ
  deriving DecidableEq, Repr

/-- Wire `weightDisplayUnit` descriptor (only its `unitKey` is ever read). -/
structure WireDisplayUnit where
  unitKey : Option String
  deriving DecidableEq, Repr

/-- An `ExecutableStepDTO` wire leaf: every field the codec reads or writes. -/
structure WireLeaf where
  stepId : Option Int
  stepOrder : Option ℚ
  childStepId : Option Int
  description : Option String
  stepType : Option WireStepType
  exerciseName : Option String
  endCondition : Option WireEndCondition
  endConditionValue : Option ℚ
  preferredEndConditionUnit : Option Int
  targetType : Option WireTargetType
  targetValueOne : Option ℚ
  targetValueTwo : Option ℚ
  zoneNumber : Option Int
  secondaryTargetType : Option Int
  secondaryTargetValueOne : Option ℚ
  secondaryTargetValueTwo : Option ℚ
  secondaryZoneNumber : Option Int
  weightValue : Option ℚ
  weightUnit : Option WireWeightUnit
  weightDisplayUnit : Option WireDisplayUnit
  benchmarkPercentage : Option ℚ
  benchmarkKey : Option String
  deriving DecidableEq, Repr

/-- A wire step: `ExecutableStepDTO` leaf or `RepeatGroupDTO` node. -/
inductive WireStep where
  | leaf (l : WireLeaf)
  | repeatGroup (repeatGroupId : Option Int) (numberOfIterations : Option ℚ)
      (smartRepeat : Bool) (childStepId : Option Int) (workoutSteps : List WireStep)
  deriving Repr

/-- The flat planning step (`WorkoutStep` in the TS source); every field
the editor reads or writes, all optional since plan files are JSON. -/
structure WorkoutStep where
  stepType : Option String
  exerciseName : Option String
  targetType : Option String
  targetValueOne : Option ℚ
  targetValueTwo : Option ℚ
  endCondition : Option String
  endConditionValue : Option ℚ
  reps : Option ℚ
  durationSeconds : Option ℚ
  distanceMeters : Option ℚ
  weight : Option ℚ
  weightPercentage : Option ℚ
  benchmarkKey : Option String
  restTimeSeconds : Option ℚ
  numberOfRepeats : Option ℚ
  stepOrder : Option ℚ
  deriving DecidableEq, Repr

/-- A workout as the validator sees it (`DetailedWorkout`); only
`workoutName` and `steps` are read by validation. -/
structure DetailedWorkout where
  workoutName : Option String
  steps : Option (List WorkoutStep)
  deriving DecidableEq, Repr

/-- `convertGarminWeight`: Garmin weight to display pounds. -/
def convertGarminWeight (weightValue : ℚ) (weightUnit : Option WireWeightUnit) : ℚ :=
  if weightValue = 0 then 0
  else if (weightUnit.bind (fun u => u.unitKey)) = some "pound" then jsRound weightValue
  else jsRound (weightValue / gramsPerPound)

/-- `convertWeightToGrams`: display pounds back to grams. -/
def convertWeightToGrams (weightLbs : ℚ) : ℚ := jsRound (weightLbs * gramsPerPound)

/-- `transformSingleStep`: convert one `ExecutableStepDTO` into a flat
`WorkoutStep` (the Step Normalizer). -/
def transformSingleStep (step : WireLeaf) : WorkoutStep :=
  -- `step.stepType?.stepTypeKey || "exercise"`
  let stepTypeStr : String :=
    match step.stepType with
    | some st =>
      match st.stepTypeKey with
      | some k => if k = "" then "exercise" else k
      | none => "exercise"
    | none => "exercise"
  -- `if (step.exerciseName) ...`
  let exName : Option String :=
    if strTruthy step.exerciseName then step.exerciseName else none
  -- `if (step.targetType?.workoutTargetTypeKey) ...`
  let tgtType : Option String :=
    match step.targetType with
    | some tt =>
      match tt.workoutTargetTypeKey with
      | some k => if k = "" then none else some k
      | none => none
    | none => none
  -- `workoutStep.targetType && workoutStep.targetType !== "no.target"`
  let hasMeaningfulTarget : Bool :=
    match tgtType with
    | some k => k ≠ "no.target"
    | none => false
  let tv1 : Option ℚ :=
    match step.targetValueOne with
    | some v => if v ≠ 0 ∨ hasMeaningfulTarget then some v else none
    | none => none
  let tv2 : Option ℚ :=
    match step.targetValueTwo with
    | some v => if v ≠ 0 ∨ hasMeaningfulTarget then some v else none
    | none => none
  -- `if (step.endCondition?.conditionTypeKey) ...`
  let endCond : Option String :=
    match step.endCondition with
    | some ec =>
      match ec.conditionTypeKey with
      | some k => if k = "" then none else some k
      | none => none
    | none => none
  let ecv : Option ℚ := step.endConditionValue
  let repsF : Option ℚ :=
    match ecv with
    | some v => if endCond = some "reps" then some v else none
    | none => none
  let durF : Option ℚ :=
    match ecv with
    | some v => if endCond = some "time" then some v else none
    | none => none
  let distF : Option ℚ :=
    match ecv with
    | some v => if endCond = some "distance" then some v else none
    | none => none
  let weightF : Option ℚ :=
    match step.weightValue with
    | some wv => some (convertGarminWeight wv step.weightUnit)
    | none => none
  -- percentage: `weightDisplayUnit?.unitKey === "percent"` branch first,
  -- else `benchmarkPercentage` (with `benchmarkKey` copied when truthy)
  let pctPair : Option ℚ × Option String :=
    if (step.weightDisplayUnit.bind (fun u => u.unitKey)) = some "percent"
        ∧ step.weightValue.isSome then
      (step.weightValue, none)
    else
      match step.benchmarkPercentage with
      | some p => (some p, if strTruthy step.benchmarkKey then step.benchmarkKey else none)
      | none => (none, none)
  { stepType := some stepTypeStr
    exerciseName := exName
    targetType := tgtType
    targetValueOne := tv1
    targetValueTwo := tv2
    endCondition := endCond
    endConditionValue := ecv
    reps := repsF
    durationSeconds := durF
    distanceMeters := distF
    weight := weightF
    weightPercentage := pctPair.1
    benchmarkKey := pctPair.2
    restTimeSeconds := none
    numberOfRepeats := none
    stepOrder := step.stepOrder }

/-- `flattenSteps`: recursively flatten, expanding `RepeatGroupDTO` nodes and
stamping `numberOfRepeats` onto every step produced from a group. -/
def flattenSteps : List WireStep → List WorkoutStep
  | [] => []
  | WireStep.leaf l :: rest => transformSingleStep l :: flattenSteps rest
  | WireStep.repeatGroup _ numberOfIterations _ _ workoutSteps :: rest =>
    ((flattenSteps workoutSteps).map
      (fun s => { s with numberOfRepeats := numberOfIterations })) ++ flattenSteps rest

/-- The rest-time transfer performed by `mergeRestIntoExercises` on the step
preceding a rest step (prefer the rest step's `durationSeconds`, else its
`endConditionValue`, else leave the field alone). -/
def absorbRest (current restStep : WorkoutStep) : WorkoutStep :=
  match restStep.durationSeconds with
  | some d => { current with restTimeSeconds := some d }
  | none =>
    match restStep.endConditionValue with
    | some v => { current with restTimeSeconds := some v }
    | none => current

/-- `mergeRestIntoExercises`: fold a rest step into the step before it and
consume it (advance by 2), otherwise emit the step unchanged (advance by 1). -/
def mergeRestIntoExercises : List WorkoutStep → List WorkoutStep
  | [] => []
  | [s] => [s]
  | current :: next :: rest =>
    if next.stepType = some "rest" then
      absorbRest current next :: mergeRestIntoExercises rest
    else
      current :: mergeRestIntoExercises (next :: rest)

/-- The renumbering pass: `step.stepOrder = index + 1` in emission order. -/
def renumberFrom (n : ℕ) : List WorkoutStep → List WorkoutStep
  | [] => []
  | s :: rest => { s with stepOrder := some ((n : ℚ) + 1) } :: renumberFrom (n + 1) rest

/-- `transformWorkoutSteps`: Flatten, then Merge, then renumber. -/
def transformWorkoutSteps (steps : List WireStep) : List WorkoutStep :=
  renumberFrom 0 (mergeRestIntoExercises (flattenSteps steps))

/-- `getStepTypeId`: fixed stepType lookup table, default 6 (exercise). -/
def getStepTypeId (stepTypeKey : String) : Int :=
  if stepTypeKey = "warmup" then 1
  else if stepTypeKey = "cooldown" then 2
  else if stepTypeKey = "interval" then 3
  else if stepTypeKey = "recovery" then 4
  else if stepTypeKey = "rest" then 3
  else if stepTypeKey = "exercise" then 6
  else if stepTypeKey = "repeat" then 7
  else if stepTypeKey = "other" then 8
  else 6

/-- `getEndConditionId`: fixed endCondition lookup table, default 1 (lap.button). -/
def getEndConditionId (endConditionKey : String) : Int :=
  if endConditionKey = "lap.button" then 1
  else if endConditionKey = "time" then 2
  else if endConditionKey = "distance" then 3
  else if endConditionKey = "calories" then 4
  else if endConditionKey = "heart.rate" then 5
  else if endConditionKey = "reps" then 6
  else if endConditionKey = "iterations" then 7
  else 1

/-- `getTargetTypeId`: fixed targetType lookup table, default 1 (no.target). -/
def getTargetTypeId (targetTypeKey : String) : Int :=
  if targetTypeKey = "no.target" then 1
  else if targetTypeKey = "heart.rate.zone" then 2
  else if targetTypeKey = "pace.zone" then 3
  else if targetTypeKey = "speed.zone" then 4
  else if targetTypeKey = "power.zone" then 6
  else if targetTypeKey = "cadence.zone" then 7
  else if targetTypeKey = "open" then 8
  else 1

/-- `convertStepToGarminFormat`: rebuild one `ExecutableStepDTO` from a
planning step. -/
def convertStepToGarminFormat (step : WorkoutStep) : WireLeaf :=
  -- `step.targetType || "no.target"` (empty string is falsy)
  let tt : String :=
    match step.targetType with
    | some t => if t = "" then "no.target" else t
    | none => "no.target"
  let weightPos : Bool :=
    match step.weight with
    | some w => w > 0
    | none => false
  { stepId := none
    -- `step.stepOrder || null` (0 is falsy)
    stepOrder :=
      match step.stepOrder with
      | some o => if o = 0 then none else some o
      | none => none
    childStepId := none
    description := none
    stepType := some
      { stepTypeId :=
          match step.stepType with
          | some k => getStepTypeId k
          | none => 6
        stepTypeKey := step.stepType }
    exerciseName := if strTruthy step.exerciseName then step.exerciseName else none
    -- `step.endCondition ? {...} : null` (empty string is falsy)
    endCondition :=
      match step.endCondition with
      | some ec =>
        if ec = "" then none
        else some { conditionTypeId := getEndConditionId ec, conditionTypeKey := some ec }
      | none => none
    endConditionValue := step.endConditionValue
    preferredEndConditionUnit := none
    targetType := some
      { workoutTargetTypeId := getTargetTypeId tt, workoutTargetTypeKey := some tt }
    targetValueOne := step.targetValueOne
    targetValueTwo := step.targetValueTwo
    zoneNumber := none
    secondaryTargetType := none
    secondaryTargetValueOne := none
    secondaryTargetValueTwo := none
    secondaryZoneNumber := none
    -- `if (step.weight !== undefined && step.weight > 0)`
    weightValue := if weightPos then step.weight.map convertWeightToGrams else none
    weightUnit :=
      if weightPos then some { unitId := some 11, unitKey := some "gram", factor := some 1 }
      else none
    weightDisplayUnit := none
    benchmarkPercentage := step.weightPercentage
    benchmarkKey :=
      if step.weightPercentage.isSome ∧ strTruthy step.benchmarkKey then step.benchmarkKey
      else none }

/-- The synthetic rest leaf `unflattenSteps` appends after a step whose
`restTimeSeconds` is positive. -/
def syntheticRestLeaf (restTimeSeconds : ℚ) : WireLeaf :=
  { stepId := none
    stepOrder := none
    childStepId := none
    description := none
    stepType := some { stepTypeId := 3, stepTypeKey := some "rest" }
    exerciseName := none
    endCondition := some { conditionTypeId := 2, conditionTypeKey := some "time" }
    endConditionValue := some restTimeSeconds
    preferredEndConditionUnit := none
    targetType := some { workoutTargetTypeId := 1, workoutTargetTypeKey := some "no.target" }
    targetValueOne := none
    targetValueTwo := none
    zoneNumber := none
    secondaryTargetType := none
    secondaryTargetValueOne := none
    secondaryTargetValueTwo := none
    secondaryZoneNumber := none
    weightValue := none
    weightUnit := none
    weightDisplayUnit := none
    benchmarkPercentage := none
    benchmarkKey := none }

/-- One step's contribution to a rebuilt run: the converted leaf, followed by
a synthetic rest leaf when `restTimeSeconds !== undefined && > 0`. -/
def expandStep (step : WorkoutStep) : List WireLeaf :=
  convertStepToGarminFormat step ::
    (match step.restTimeSeconds with
     | some rt => if rt > 0 then [syntheticRestLeaf rt] else []
     | none => [])

/-- The run-grouping loop of `unflattenSteps`: a new group starts whenever
`numberOfRepeats` differs from the previous step's. -/
def groupRunsAux (currentGroup : List WorkoutStep) (currentRepeats : Option ℚ) :
    List WorkoutStep → List (List WorkoutStep)
  | [] => [currentGroup]
  | s :: rest =>
    if s.numberOfRepeats ≠ currentRepeats then
      currentGroup :: groupRunsAux [s] s.numberOfRepeats rest
    else
      groupRunsAux (currentGroup ++ [s]) currentRepeats rest

/-- Group a flat step list into runs of equal `numberOfRepeats`. -/
def groupRuns : List WorkoutStep → List (List WorkoutStep)
  | [] => []
  | s :: rest => groupRunsAux [s] s.numberOfRepeats rest

/-- Rebuild one grouped run: convert each step (re-expanding merged rest) and
wrap in a `RepeatGroupDTO` when the run's `numberOfRepeats` is `> 1`. -/
def rebuildRun (group : List WorkoutStep) : List WireStep :=
  match group with
  | [] => []
  | firstStep :: _ =>
    let numberOfRepeats := firstStep.numberOfRepeats
    let garminSteps := group.flatMap expandStep
    match numberOfRepeats with
    | some n =>
      if n > 1 then
        [WireStep.repeatGroup none (some n) false none (garminSteps.map WireStep.leaf)]
      else garminSteps.map WireStep.leaf
    | none => garminSteps.map WireStep.leaf

/-- `unflattenSteps`: the Tree Rebuilder (inverse of Flatten+Merge). -/
def unflattenSteps (steps : List WorkoutStep) : List WireStep :=
  (groupRuns steps).flatMap rebuildRun

/-- Clear a wire leaf's `stepOrder` (round-trip comparison ignores it). -/
def eraseLeafOrder (l : WireLeaf) : WireLeaf := { l with stepOrder := none }

mutual

/-- Clear `stepOrder` recursively in a wire step. -/
def eraseStepOrder : WireStep → WireStep
  | WireStep.leaf l => WireStep.leaf (eraseLeafOrder l)
  | WireStep.repeatGroup a n s c children =>
    WireStep.repeatGroup a n s c (eraseStepOrderList children)

/-- Clear `stepOrder` recursively in a wire step list. -/
def eraseStepOrderList : List WireStep → List WireStep
  | [] => []
  | w :: rest => eraseStepOrder w :: eraseStepOrderList rest

end

/-- Clear a planning step's `stepOrder`. -/
def erasePlanOrder (s : WorkoutStep) : WorkoutStep := { s with stepOrder := none }

/-- `VALID_STEP_TYPES`. -/
def VALID_STEP_TYPES : List String :=
  ["warmup", "cooldown", "interval", "recovery", "rest", "exercise", "repeat", "other"]

/-- `VALID_END_CONDITIONS`. -/
def VALID_END_CONDITIONS : List String :=
  ["reps", "time", "distance", "lap.button", "iterations", "calories", "heart.rate"]

/-- `VALID_TARGET_TYPES`. -/
def VALID_TARGET_TYPES : List String :=
  ["no.target", "heart.rate.zone", "pace.zone", "speed.zone", "power.zone",
   "cadence.zone", "open"]

/-- `isValidStepType` (the value is a string by typing; membership check). -/
def isValidStepType (value : String) : Bool := VALID_STEP_TYPES.contains value

/-- `isValidEndCondition`. -/
def isValidEndCondition (value : String) : Bool := VALID_END_CONDITIONS.contains value

/-- `isValidTargetType`. -/
def isValidTargetType (value : String) : Bool := VALID_TARGET_TYPES.contains value

/-- `validateWorkoutStep`: strict per-step validation, first violated rule
throws. The `typeof`-must-be-number branches of the source are inherently
satisfied here because numeric fields are `Option ℚ`. -/
def validateWorkoutStep (step : WorkoutStep) (stepIndex : ℕ) : Except String Unit := do
  -- Required: stepType (`!step.stepType` — missing or empty string)
  if ¬ strTruthy step.stepType then
    throw s!"Step {stepIndex}: Missing required field 'stepType'"
  match step.stepType with
  | some st =>
    if ¬ isValidStepType st then
      throw s!"Step {stepIndex}: Invalid stepType '{st}'"
  | none => pure ()
  -- Required: endCondition (for most step types)
  if ¬ strTruthy step.endCondition ∧ step.stepType ≠ some "rest" then
    throw s!"Step {stepIndex}: Missing required field 'endCondition'"
  match step.endCondition with
  | some ec =>
    if strTruthy step.endCondition ∧ ¬ isValidEndCondition ec then
      throw s!"Step {stepIndex}: Invalid endCondition '{ec}'"
  | none => pure ()
  -- Required: endConditionValue (if endCondition is set)
  if strTruthy step.endCondition ∧ step.endConditionValue = none then
    throw s!"Step {stepIndex}: Missing required field 'endConditionValue'"
  -- Range: endConditionValue must be positive
  match step.endConditionValue with
  | some v =>
    if v ≤ 0 then
      throw s!"Step {stepIndex}: Field 'endConditionValue' must be positive"
  | none => pure ()
  -- Required: targetType
  if ¬ strTruthy step.targetType then
    throw s!"Step {stepIndex}: Missing required field 'targetType'"
  match step.targetType with
  | some tt =>
    if ¬ isValidTargetType tt then
      throw s!"Step {stepIndex}: Invalid targetType '{tt}'"
  | none => pure ()
  -- Weight validation
  match step.weight with
  | some w =>
    if w < 0 then
      throw s!"Step {stepIndex}: Field 'weight' cannot be negative"
    if w > 1000 then
      throw s!"Step {stepIndex}: Field 'weight' seems unreasonably high"
  | none => pure ()
  -- Weight percentage validation
  match step.weightPercentage with
  | some p =>
    if p ≤ 0 ∨ p > 200 then
      throw s!"Step {stepIndex}: Field 'weightPercentage' must be between 0 and 200"
    if ¬ strTruthy step.benchmarkKey then
      throw s!"Step {stepIndex}: Field 'benchmarkKey' is required when 'weightPercentage' is set"
  | none => pure ()
  -- Reps validation
  match step.reps with
  | some r =>
    if r ≤ 0 then throw s!"Step {stepIndex}: Field 'reps' must be positive"
  | none => pure ()
  -- Duration validation
  match step.durationSeconds with
  | some d =>
    if d ≤ 0 then throw s!"Step {stepIndex}: Field 'durationSeconds' must be positive"
  | none => pure ()
  -- Distance validation
  match step.distanceMeters with
  | some d =>
    if d ≤ 0 then throw s!"Step {stepIndex}: Field 'distanceMeters' must be positive"
  | none => pure ()
  -- Rest time validation
  match step.restTimeSeconds with
  | some rt =>
    if rt < 0 then throw s!"Step {stepIndex}: Field 'restTimeSeconds' cannot be negative"
  | none => pure ()
  -- Number of repeats validation
  match step.numberOfRepeats with
  | some n =>
    if n ≤ 0 then throw s!"Step {stepIndex}: Field 'numberOfRepeats' must be positive"
  | none => pure ()
  -- Field interdependency: endCondition 'reps' vs reps
  if step.endCondition = some "reps" ∧ step.reps.isSome
      ∧ step.reps ≠ step.endConditionValue then
    throw s!"Step {stepIndex}: Mismatch between 'reps' and 'endConditionValue'"
  -- Field interdependency: endCondition 'time' vs durationSeconds
  if step.endCondition = some "time" ∧ step.durationSeconds.isSome
      ∧ step.durationSeconds ≠ step.endConditionValue then
    throw s!"Step {stepIndex}: Mismatch between 'durationSeconds' and 'endConditionValue'"
  -- Field interdependency: endCondition 'distance' vs distanceMeters
  if step.endCondition = some "distance" ∧ step.distanceMeters.isSome
      ∧ step.distanceMeters ≠ step.endConditionValue then
    throw s!"Step {stepIndex}: Mismatch between 'distanceMeters' and 'endConditionValue'"
  pure ()

/-- The per-step loop of `validateWorkout`: the first failing step's error is
rethrown with the workout name prefixed, aborting the remaining steps. -/
def validateStepsFrom (workoutName : String) (idx : ℕ) :
    List WorkoutStep → Except String Unit
  | [] => pure ()
  | s :: rest =>
    match validateWorkoutStep s (idx + 1) with
    | Except.ok _ => validateStepsFrom workoutName (idx + 1) rest
    | Except.error msg => throw s!"Workout '{workoutName}': {msg}"

/-- `validateWorkout`: workout-level strict validation (throws on the first
offending step). -/
def validateWorkout (workout : DetailedWorkout) : Except String Unit := do
  if ¬ strTruthy workout.workoutName then
    throw "Invalid workout: Missing or invalid 'workoutName'"
  match workout.steps with
  | none =>
    let nm := workout.workoutName.getD ""
    throw s!"Invalid workout '{nm}': Missing or invalid 'steps' array"
  | some steps => validateStepsFrom (workout.workoutName.getD "") 0 steps

/-- The collection loop of `validateWorkoutsForUpload`. -/
def validateWorkoutsAux (index : ℕ) : List DetailedWorkout → List String
  | [] => []
  | w :: rest =>
    match validateWorkout w with
    | Except.ok _ => validateWorkoutsAux (index + 1) rest
    | Except.error msg =>
      (let i := index + 1
       s!"Workout {i}: {msg}") :: validateWorkoutsAux (index + 1) rest

/-- `validateWorkoutsForUpload`: batch validation, one collected error per
workout whose validation throws. -/
def validateWorkoutsForUpload (workouts : List DetailedWorkout) : List String :=
  validateWorkoutsAux 0 workouts

/-- `true` iff validation failed. -/
def exceptFailed (e : Except String Unit) : Bool :=
  match e with
  | Except.ok _ => false
  | Except.error _ => true

/-! ### Concrete test vectors -/

/-- A wire leaf with every field absent. -/
def emptyWireLeaf : WireLeaf :=
  { stepId := none, stepOrder := none, childStepId := none, description := none
    stepType := none, exerciseName := none, endCondition := none
    endConditionValue := none, preferredEndConditionUnit := none, targetType := none
    targetValueOne := none, targetValueTwo := none, zoneNumber := none
    secondaryTargetType := none, secondaryTargetValueOne := none
    secondaryTargetValueTwo := none, secondaryZoneNumber := none
    weightValue := none, weightUnit := none, weightDisplayUnit := none
    benchmarkPercentage := none, benchmarkKey := none }

/-- A representative interval wire leaf (reps end condition, no target). -/
def wireInterval : WireLeaf :=
  { emptyWireLeaf with
    stepType := some { stepTypeId := 3, stepTypeKey := some "interval" }
    endCondition := some { conditionTypeId := 6, conditionTypeKey := some "reps" }
    endConditionValue := some 10
    targetType := some { workoutTargetTypeId := 1, workoutTargetTypeKey := some "no.target" }
    stepOrder := some 1 }

/-- A wire rest leaf in the shape the backend and the rebuilder use
(coded rest/time/no-target, duration `d`). -/
def wireRest (d : ℚ) : WireLeaf :=
  { emptyWireLeaf with
    stepType := some { stepTypeId := 3, stepTypeKey := some "rest" }
    endCondition := some { conditionTypeId := 2, conditionTypeKey := some "time" }
    endConditionValue := some d
    targetType := some { workoutTargetTypeId := 1, workoutTargetTypeKey := some "no.target" } }

/-- A planning step with every field absent. -/
def emptyPlanStep : WorkoutStep :=
  { stepType := none, exerciseName := none, targetType := none
    targetValueOne := none, targetValueTwo := none, endCondition := none
    endConditionValue := none, reps := none, durationSeconds := none
    distanceMeters := none, weight := none, weightPercentage := none
    benchmarkKey := none, restTimeSeconds := none, numberOfRepeats := none
    stepOrder := none }

/-- A planning exercise step that passes validation. -/
def validExerciseStep : WorkoutStep :=
  { emptyPlanStep with
    stepType := some "exercise", exerciseName := some "BARBELL_BENCH_PRESS"
    targetType := some "no.target", endCondition := some "reps"
    endConditionValue := some 10 }

/-- A planning rest step whose duration is `d` seconds. -/
def planRest (d : ℚ) : WorkoutStep :=
  { emptyPlanStep with
    stepType := some "rest", endCondition := some "time"
    endConditionValue := some d, durationSeconds := some d }

/-! ### Well-formed wire sequences for the round-trip (C1)

The round-trip `Rebuild ∘ Merge ∘ Flatten = id` cannot hold for arbitrary
wire input (see the counterexample); it holds on the backend-shaped class
below: runs of leaves and repeat-groups-of-leaves whose rest leaves are
exactly the canonical rest shape the rebuilder itself emits. -/

/-- A run of the wire sequence: a maximal stretch of top-level leaves, or a
single repeat-group (whose children are leaves). -/
inductive WireRun where
  | leavesRun (ls : List WireLeaf)
  | groupRun (repeatGroupId : Option Int) (numberOfIterations : Option ℚ)
      (smartRepeat : Bool) (childStepId : Option Int) (children : List WireLeaf)
  deriving Repr

/-- The wire steps of a run. -/
def renderRun : WireRun → List WireStep
  | WireRun.leavesRun ls => ls.map WireStep.leaf
  | WireRun.groupRun a n sm c ls => [WireStep.repeatGroup a n sm c (ls.map WireStep.leaf)]

/-- A wire sequence assembled from runs. -/
def renderRuns (rs : List WireRun) : List WireStep := rs.flatMap renderRun

/-- The `numberOfRepeats` value every flattened step of the run receives. -/
def runKey : WireRun → Option ℚ
  | WireRun.leavesRun _ => none
  | WireRun.groupRun _ n _ _ _ => n

/-- The leaves of a run. -/
def runLeaves : WireRun → List WireLeaf
  | WireRun.leavesRun ls => ls
  | WireRun.groupRun _ _ _ _ ls => ls

/-- Fields the rebuilder always emits as `null`/absent: a round-trippable
leaf must already hold `null` there. -/
def constNullFieldsB (l : WireLeaf) : Bool :=
  (l.stepId = none : Bool) && (l.childStepId = none : Bool) &&
  (l.description = none : Bool) && (l.preferredEndConditionUnit = none : Bool) &&
  (l.zoneNumber = none : Bool) && (l.secondaryTargetType = none : Bool) &&
  (l.secondaryTargetValueOne = none : Bool) && (l.secondaryTargetValueTwo = none : Bool) &&
  (l.secondaryZoneNumber = none : Bool) && (l.weightDisplayUnit = none : Bool)

/-- A well-formed non-rest leaf: consistent id/key codings, a present truthy
`targetType`, no empty-string names, no zero target value with no-target, a
weight that is either absent or a gram-denominated fixed point of the lossy
pound conversion, and a benchmark key only alongside a percentage. -/
def wfBasicLeafB (l : WireLeaf) : Bool :=
  constNullFieldsB l &&
  (match l.stepType with
   | some st =>
     match st.stepTypeKey with
     | some k =>
       (k ≠ "" : Bool) && (k ≠ "rest" : Bool) && (st.stepTypeId = getStepTypeId k : Bool)
     | none => false
   | none => false) &&
  (l.exerciseName ≠ some "" : Bool) &&
  (match l.endCondition with
   | some ec =>
     match ec.conditionTypeKey with
     | some k => (k ≠ "" : Bool) && (ec.conditionTypeId = getEndConditionId k : Bool)
     | none => false
   | none => true) &&
  (match l.targetType with
   | some tt =>
     match tt.workoutTargetTypeKey with
     | some k => (k ≠ "" : Bool) && (tt.workoutTargetTypeId = getTargetTypeId k : Bool)
     | none => false
   | none => false) &&
  (match l.targetValueOne with
   | some v =>
     (v ≠ 0 : Bool) ||
       ((l.targetType.bind (fun tt => tt.workoutTargetTypeKey)) ≠ some "no.target" : Bool)
   | none => true) &&
  (match l.targetValueTwo with
   | some v =>
     (v ≠ 0 : Bool) ||
       ((l.targetType.bind (fun tt => tt.workoutTargetTypeKey)) ≠ some "no.target" : Bool)
   | none => true) &&
  (match l.weightValue with
   | some wv =>
     (l.weightUnit = some { unitId := some 11, unitKey := some "gram", factor := some 1 }
       : Bool) &&
     (0 < convertGarminWeight wv l.weightUnit : Bool) &&
     (convertWeightToGrams (convertGarminWeight wv l.weightUnit) = wv : Bool)
   | none => (l.weightUnit = none : Bool)) &&
  (match l.benchmarkPercentage with
   | some _ => (l.benchmarkKey ≠ some "" : Bool)
   | none => (l.benchmarkKey = none : Bool))

/-- A canonical rest leaf: exactly the shape the rebuilder's synthetic rest
takes (coded rest / time / no-target, positive duration, all other fields
absent), with a free `stepOrder`. -/
def wfRestLeafB (l : WireLeaf) : Bool :=
  (l.stepType = some { stepTypeId := 3, stepTypeKey := some "rest" } : Bool) &&
  (l.endCondition = some { conditionTypeId := 2, conditionTypeKey := some "time" } : Bool) &&
  (match l.endConditionValue with
   | some d => (0 < d : Bool)
   | none => false) &&
  (l.targetType = some { workoutTargetTypeId := 1, workoutTargetTypeKey := some "no.target" }
    : Bool) &&
  (l.targetValueOne = none : Bool) && (l.targetValueTwo = none : Bool) &&
  (l.exerciseName = none : Bool) && (l.weightValue = none : Bool) &&
  (l.weightUnit = none : Bool) && (l.benchmarkPercentage = none : Bool) &&
  (l.benchmarkKey = none : Bool) && constNullFieldsB l

/-- A round-trippable leaf. -/
def wfLeafB (l : WireLeaf) : Bool := wfBasicLeafB l || wfRestLeafB l

/-- Well-formedness of one run: nonempty well-formed leaves; a group
additionally has the constant fields the rebuilder emits and an iteration
count greater than one. -/
def wfRunB : WireRun → Bool
  | WireRun.leavesRun ls => (!ls.isEmpty) && ls.all wfLeafB
  | WireRun.groupRun a n sm c ls =>
    (a = none : Bool) && (sm = false : Bool) && (c = none : Bool) &&
    (match n with
     | some q => (1 < q : Bool)
     | none => false) &&
    (!ls.isEmpty) && ls.all wfLeafB

/-- `true` when the run's first leaf normalizes to a rest step (such a step
would be absorbed across the preceding run boundary). -/
def restFirstB (r : WireRun) : Bool :=
  match (runLeaves r).head? with
  | some l => ((transformSingleStep l).stepType = some "rest" : Bool)
  | none => false

/-- Adjacent runs carry distinct keys (so the rebuilder's run grouping
recovers exactly these runs). -/
def chainKeysB : List WireRun → Bool
  | [] => true
  | [_] => true
  | a :: b :: rest => (runKey a ≠ runKey b : Bool) && chainKeysB (b :: rest)

/-- Well-formedness of a whole run sequence: every run well-formed, adjacent
keys distinct, and no run after the first starts with a rest leaf. -/
def wfRunsB (rs : List WireRun) : Bool :=
  rs.all wfRunB && chainKeysB rs &&
  (match rs with
   | [] => true
   | _ :: t => t.all (fun r => !restFirstB r))

/-- A flattened run: its leaves normalized, stamped with the run's key. -/
def flatRun (r : WireRun) : List WorkoutStep :=
  (runLeaves r).map (fun l => { transformSingleStep l with numberOfRepeats := runKey r })

/-- A flattened-and-merged run. -/
def mergedRun (r : WireRun) : List WorkoutStep := mergeRestIntoExercises (flatRun r)

/-- A representative well-formed run sequence: two plain leaves (with a
trailing rest), then a 3-iteration repeat-group of an interval and a rest. -/
def roundTripExampleRuns : List WireRun :=
  [WireRun.leavesRun [wireInterval, wireRest 90],
   WireRun.groupRun none (some 3) false none [wireInterval, wireRest 60]]

/-! ### Helper lemmas -/

/-- Every step flattened out of a repeat-group carries the group's
`numberOfIterations`. -/
theorem flattenSteps_group_repeats (a : Option Int) (n : Option ℚ) (sm : Bool)
    (c : Option Int) (children : List WireStep) :
    ∀ s ∈ flattenSteps [WireStep.repeatGroup a n sm c children],
      s.numberOfRepeats = n := by
  intro s hs
  simp only [flattenSteps, List.append_nil, List.mem_map] at hs
  obtain ⟨t, _, rfl⟩ := hs
  rfl

/-- Length of the renumbered list. -/
theorem renumberFrom_length (ms : List WorkoutStep) :
    ∀ n, (renumberFrom n ms).length = ms.length := by
  induction ms with
  | nil => intro n; rfl
  | cons s rest ih => intro n; simp [renumberFrom, ih]

/-- The renumbering pass produces exactly the orders `n+1, n+2, ...`. -/
theorem renumberFrom_orders (ms : List WorkoutStep) :
    ∀ n, (renumberFrom n ms).map (fun s => s.stepOrder) =
      (List.range' (n + 1) ms.length).map (fun k => some ((k : ℕ) : ℚ)) := by
  induction ms with
  | nil => intro n; rfl
  | cons s rest ih =>
    intro n
    simp only [renumberFrom, List.map_cons, List.length_cons, List.range'_succ, ih (n + 1)]
    congr 2
    push_cast
    ring

/-- The batch validator collects exactly one error per failing workout. -/
theorem validateWorkoutsAux_length (ws : List DetailedWorkout) :
    ∀ n, (validateWorkoutsAux n ws).length =
      ws.countP (fun w => exceptFailed (validateWorkout w)) := by
  induction ws with
  | nil => intro n; rfl
  | cons w rest ih =>
    intro n
    simp only [validateWorkoutsAux, List.countP_cons]
    cases hv : validateWorkout w with
    | ok u => simp [ih (n + 1), exceptFailed, hv]
    | error msg => simp [ih (n + 1), exceptFailed, hv]

/-! ### Claim theorems -/

/-- C9: the display-weight conversion satisfies
`toDisplayWeight(453.59237) = 1`, `toDisplayWeight(102261) = 225`,
`toDisplayWeight(0, u) = 0` for every unit `u`, and
`toDisplayWeight(100, u) = 100` when `u.unitKey = "pound"`. -/
theorem C9_weight_conversion_boundary :
    convertGarminWeight (45359237 / 100000) none = 1 ∧
    convertGarminWeight 102261 none = 225 ∧
    (∀ u : Option WireWeightUnit, convertGarminWeight 0 u = 0) ∧
    (∀ (uid : Option Int) (f : Option ℚ),
      convertGarminWeight 100 (some { unitId := uid, unitKey := some "pound", factor := f })
        = 100) := by
  refine ⟨?_, ?_, ?_, ?_⟩
  · rw [convertGarminWeight, if_neg (by norm_num), if_neg (by simp [Option.bind])]
    norm_num [jsRound, gramsPerPound]
  · rw [convertGarminWeight, if_neg (by norm_num), if_neg (by simp [Option.bind])]
    norm_num [jsRound, gramsPerPound]
  · intro u
    rw [convertGarminWeight]
    norm_num
  · intro uid f
    rw [convertGarminWeight, if_neg (by norm_num),
      if_pos (by simp [Option.bind])]
    norm_num [jsRound]

/-- C6: the Tree Rebuilder is total (it is a plain function of the whole
plan-step type) and falls back to the default codes 6 / 1 / 1 for any
`stepType` / `endCondition` / `targetType` key outside the fixed lookup
tables, while keeping the unrecognized key itself. -/
theorem C6_rebuilder_fallback_defaults (s : WorkoutStep) (k1 k2 k3 : String)
    (h1 : s.stepType = some k1) (hm1 : k1 ∉ VALID_STEP_TYPES)
    (h2 : s.endCondition = some k2) (hne2 : k2 ≠ "") (hm2 : k2 ∉ VALID_END_CONDITIONS)
    (h3 : s.targetType = some k3) (hne3 : k3 ≠ "") (hm3 : k3 ∉ VALID_TARGET_TYPES) :
    (convertStepToGarminFormat s).stepType =
      some { stepTypeId := 6, stepTypeKey := some k1 } ∧
    (convertStepToGarminFormat s).endCondition =
      some { conditionTypeId := 1, conditionTypeKey := some k2 } ∧
    (convertStepToGarminFormat s).targetType =
      some { workoutTargetTypeId := 1, workoutTargetTypeKey := some k3 } := by
  simp only [VALID_STEP_TYPES, List.mem_cons, List.mem_singleton, not_or,
    List.not_mem_nil] at hm1
  simp only [VALID_END_CONDITIONS, List.mem_cons, List.mem_singleton, not_or,
    List.not_mem_nil] at hm2
  simp only [VALID_TARGET_TYPES, List.mem_cons, List.mem_singleton, not_or,
    List.not_mem_nil] at hm3
  obtain ⟨a1, a2, a3, a4, a5, a6, a7, a8, -⟩ := hm1
  obtain ⟨b1, b2, b3, b4, b5, b6, b7, -⟩ := hm2
  obtain ⟨c1, c2, c3, c4, c5, c6, c7, -⟩ := hm3
  refine ⟨?_, ?_, ?_⟩
  · simp [convertStepToGarminFormat, h1, getStepTypeId, a1, a2, a3, a4, a5, a6, a7, a8]
  · simp [convertStepToGarminFormat, h2, hne2, getEndConditionId,
      b1, b2, b3, b4, b5, b6, b7]
  · simp [convertStepToGarminFormat, h3, hne3, getTargetTypeId,
      c1, c2, c3, c4, c5, c6, c7]

/-- C6 witness: concrete unrecognized keys fall back to codes 6 / 1 / 1. -/
theorem C6_rebuilder_fallback_defaults_witness :
    (convertStepToGarminFormat
        { emptyPlanStep with
          stepType := some "yoga"
          endCondition := some "vibes"
          targetType := some "moon.zone" }).stepType =
      some { stepTypeId := 6, stepTypeKey := some "yoga" } ∧
    (convertStepToGarminFormat
        { emptyPlanStep with
          stepType := some "yoga"
          endCondition := some "vibes"
          targetType := some "moon.zone" }).endCondition =
      some { conditionTypeId := 1, conditionTypeKey := some "vibes" } ∧
    (convertStepToGarminFormat
        { emptyPlanStep with
          stepType := some "yoga"
          endCondition := some "vibes"
          targetType := some "moon.zone" }).targetType =
      some { workoutTargetTypeId := 1, workoutTargetTypeKey := some "moon.zone" } :=
  C6_rebuilder_fallback_defaults
    { emptyPlanStep with
      stepType := some "yoga"
      endCondition := some "vibes"
      targetType := some "moon.zone" }
    "yoga" "vibes" "moon.zone" rfl (by decide) rfl (by decide) (by decide)
    rfl (by decide) (by decide)

/-- C7: step validation raises an error for each of: a reps/endConditionValue
mismatch (reps=8 vs endConditionValue=10), a missing targetType,
weightPercentage=250 (outside (0,200]), and weightPercentage=75 without a
benchmarkKey — while the otherwise-identical valid step passes. -/
theorem C7_validator_rejects :
    exceptFailed (validateWorkoutStep validExerciseStep 1) = false ∧
    exceptFailed (validateWorkoutStep
      { validExerciseStep with reps := some 8 } 1) = true ∧
    exceptFailed (validateWorkoutStep
      { validExerciseStep with targetType := none } 1) = true ∧
    exceptFailed (validateWorkoutStep
      { validExerciseStep with
        weightPercentage := some 250
        benchmarkKey := some "BENCH_PRESS_1RM" } 1) = true ∧
    exceptFailed (validateWorkoutStep
      { validExerciseStep with weightPercentage := some 75 } 1) = true := by
  decide

/-- C8: for a wire leaf with an `endConditionValue`, the Step Normalizer sets
exactly the parallel field matching the decoded `endCondition` (`reps`,
`durationSeconds`, or `distanceMeters`) to that value and leaves the other
two absent; any other (or absent) decoded condition leaves all three absent. -/
theorem C8_parallel_field_derivation (l : WireLeaf) (v : ℚ)
    (h : l.endConditionValue = some v) :
    (transformSingleStep l).reps =
      (if (transformSingleStep l).endCondition = some "reps" then some v else none) ∧
    (transformSingleStep l).durationSeconds =
      (if (transformSingleStep l).endCondition = some "time" then some v else none) ∧
    (transformSingleStep l).distanceMeters =
      (if (transformSingleStep l).endCondition = some "distance" then some v else none) := by
  simp [transformSingleStep, h]

/-- C8 witness: `endCondition="reps", endConditionValue=12` gives `reps=12`
and leaves `durationSeconds` and `distanceMeters` absent. -/
theorem C8_parallel_field_derivation_witness :
    ({ wireInterval with endConditionValue := some 12 } : WireLeaf).endConditionValue
        = some 12 ∧
    (transformSingleStep { wireInterval with endConditionValue := some 12 }).reps =
      (if (transformSingleStep { wireInterval with endConditionValue := some 12 }).endCondition
          = some "reps" then some 12 else none) ∧
    (transformSingleStep { wireInterval with endConditionValue := some 12 }).durationSeconds =
      (if (transformSingleStep { wireInterval with endConditionValue := some 12 }).endCondition
          = some "time" then some 12 else none) ∧
    (transformSingleStep { wireInterval with endConditionValue := some 12 }).distanceMeters =
      (if (transformSingleStep { wireInterval with endConditionValue := some 12 }).endCondition
          = some "distance" then some 12 else none) :=
  ⟨rfl, C8_parallel_field_derivation { wireInterval with endConditionValue := some 12 } 12 rfl⟩

/-- C4: after Flatten+Merge (and the renumbering pass of
`transformWorkoutSteps`), the emitted `stepOrder` values are exactly the
contiguous integers `1..N` in emission order, where `N` is the post-merge
step count. -/
theorem C4_renumbering (W : List WireStep) :
    (transformWorkoutSteps W).map (fun s => s.stepOrder) =
      (List.range' 1 (transformWorkoutSteps W).length).map (fun k => some ((k : ℕ) : ℚ)) ∧
    (transformWorkoutSteps W).length =
      (mergeRestIntoExercises (flattenSteps W)).length := by
  constructor
  · rw [transformWorkoutSteps, renumberFrom_orders, renumberFrom_length]
  · rw [transformWorkoutSteps, renumberFrom_length]

/-- C3 counterexample: the Rest Merger folds a rest step into *any* preceding
step, including another rest. On `[rest(90s), rest(60s)]` the second rest is
merged into the first and consumed, so it does not survive as its own step —
contradicting the claim that only a rest following a non-rest step is folded
and that a consecutive rest is never merged. -/
theorem C3_rest_merge_counterexample :
    mergeRestIntoExercises [planRest 90, planRest 60] =
      [{ planRest 90 with restTimeSeconds := some 60 }] ∧
    (mergeRestIntoExercises [planRest 90, planRest 60]).length = 1 := by
  decide

/-- C3 (amended): the Rest Merger folds the rest step immediately following
the current step — whatever that current step's type — into its
`restTimeSeconds` and consumes it, advancing past both, so a freshly merged
pair is never re-scanned; in particular `[exercise, rest(90s), rest(60s)]`
yields exactly `[exercise{restTimeSeconds:90}, rest(60s)]` (length 2, the
second rest untouched). -/
theorem C3_rest_merge_first_only :
    (mergeRestIntoExercises [validExerciseStep, planRest 90, planRest 60] =
      [{ validExerciseStep with restTimeSeconds := some 90 }, planRest 60]) ∧
    (∀ (s r : WorkoutStep) (tl : List WorkoutStep), r.stepType = some "rest" →
      mergeRestIntoExercises (s :: r :: tl) =
        absorbRest s r :: mergeRestIntoExercises tl) := by
  refine ⟨by decide, ?_⟩
  intro s r tl hr
  simp [mergeRestIntoExercises, hr]

/-- C3 witness: instantiating the scan step at a concrete exercise/rest pair. -/
theorem C3_rest_merge_first_only_witness :
    mergeRestIntoExercises [validExerciseStep, planRest 90] =
      absorbRest validExerciseStep (planRest 90) :: mergeRestIntoExercises [] :=
  C3_rest_merge_first_only.2 validExerciseStep (planRest 90) [] (by decide)

/-- C5 counterexample: for a repeat-group with `numberOfIterations = 2`
nested directly inside one with `numberOfIterations = 3`, the steps produced
from the inner group carry `numberOfRepeats = 3` (the outer count), not the
inner group's own count 2 — so the claim fails for nested repeat-groups. -/
theorem C5_repeat_propagation_counterexample :
    (flattenSteps
        [WireStep.repeatGroup none (some 3) false none
          [WireStep.repeatGroup none (some 2) false none
            [WireStep.leaf wireInterval]]]).map (fun s => s.numberOfRepeats) =
      [some 3] ∧ some (3 : ℚ) ≠ some (2 : ℚ) := by
  refine ⟨by simp [flattenSteps], by decide⟩

/-- C5 (amended): for every repeat-group flattened at the top level (not
nested inside another group), every PlanStep produced from it carries the
group's `numberOfIterations` as `numberOfRepeats`; in particular a group with
`numberOfIterations = 3` wrapping `[interval, rest(60s)]` yields, after
Flatten+Merge, exactly one step — the interval with the rest folded into
`restTimeSeconds` — carrying `numberOfRepeats = 3`. -/
theorem C5_repeat_propagation :
    (∀ (a : Option Int) (n : Option ℚ) (sm : Bool) (c : Option Int)
        (children : List WireStep),
      ∀ s ∈ flattenSteps [WireStep.repeatGroup a n sm c children],
        s.numberOfRepeats = n) ∧
    mergeRestIntoExercises (flattenSteps
        [WireStep.repeatGroup none (some 3) false none
          [WireStep.leaf wireInterval, WireStep.leaf (wireRest 60)]]) =
      [{ transformSingleStep wireInterval with
          numberOfRepeats := some 3
          restTimeSeconds := some 60 }] := by
  refine ⟨flattenSteps_group_repeats, ?_⟩
  simp [flattenSteps, mergeRestIntoExercises, transformSingleStep, wireInterval,
    wireRest, emptyWireLeaf, absorbRest, strTruthy]

/-- C5 witness: a concrete step flattened out of an iteration-3 group carries
`numberOfRepeats = 3`. -/
theorem C5_repeat_propagation_witness :
    ({ transformSingleStep wireInterval with numberOfRepeats := some 3 }
        : WorkoutStep).numberOfRepeats = some 3 :=
  C5_repeat_propagation.1 none (some 3) false none [WireStep.leaf wireInterval]
    { transformSingleStep wireInterval with numberOfRepeats := some 3 }
    (by simp [flattenSteps])

/-- C10: flattening a repeat-group that directly contains another repeat-group
stamps the outer group's `numberOfIterations` onto every produced step,
overwriting the inner group's count; when the two counts differ, the inner
count appears on no step of the flattened output. -/
theorem C10_nested_group_overwrite (a1 : Option Int) (n1 : Option ℚ) (sm1 : Bool)
    (c1 : Option Int) (pre post : List WireStep) (a2 : Option Int) (n2 : Option ℚ)
    (sm2 : Bool) (c2 : Option Int) (innerChildren : List WireStep) :
    (∀ s ∈ flattenSteps
        [WireStep.repeatGroup a1 n1 sm1 c1
          (pre ++ WireStep.repeatGroup a2 n2 sm2 c2 innerChildren :: post)],
      s.numberOfRepeats = n1) ∧
    (n2 ≠ n1 →
      ∀ s ∈ flattenSteps
          [WireStep.repeatGroup a1 n1 sm1 c1
            (pre ++ WireStep.repeatGroup a2 n2 sm2 c2 innerChildren :: post)],
        s.numberOfRepeats ≠ n2) := by
  refine ⟨flattenSteps_group_repeats a1 n1 sm1 c1 _, ?_⟩
  intro hne s hs
  rw [flattenSteps_group_repeats a1 n1 sm1 c1 _ s hs]
  exact fun h => hne h.symm

/-- C10 witness: with outer count 3 and inner count 2, a concrete inner step
carries `numberOfRepeats = 3`, not 2. -/
theorem C10_nested_group_overwrite_witness :
    ({ transformSingleStep wireInterval with numberOfRepeats := some 3 }
        : WorkoutStep).numberOfRepeats ≠ some (2 : ℚ) :=
  (C10_nested_group_overwrite none (some 3) false none [] [] none (some 2) false none
      [WireStep.leaf wireInterval]).2 (by decide)
    { transformSingleStep wireInterval with numberOfRepeats := some 3 }
    (by simp [flattenSteps])

/-- C2 counterexample: a workout whose first and second steps each violate
the schema produces a single collected error, not one entry per offending
step — the first offending step aborts that workout's remaining checks. -/
theorem C2_batch_errors_counterexample :
    exceptFailed (validateWorkoutStep { validExerciseStep with reps := some 8 } 1) = true ∧
    exceptFailed (validateWorkoutStep { validExerciseStep with targetType := none } 2) = true ∧
    (validateWorkoutsForUpload
        [{ workoutName := some "Workout A"
           steps := some [{ validExerciseStep with reps := some 8 },
             { validExerciseStep with targetType := none }] }]).length = 1 := by
  decide

/-- C2 (amended): the batch validator returns exactly one error entry per
offending workout — the error of that workout's first offending step — and a
failing workout never suppresses the check of other workouts: the number of
collected errors is the count of failing workouts and is additive across
concatenated batches. -/
theorem C2_batch_validator_per_workout :
    (∀ ws : List DetailedWorkout, (validateWorkoutsForUpload ws).length =
      ws.countP (fun w => exceptFailed (validateWorkout w))) ∧
    (∀ ws1 ws2 : List DetailedWorkout,
      (validateWorkoutsForUpload (ws1 ++ ws2)).length =
        (validateWorkoutsForUpload ws1).length + (validateWorkoutsForUpload ws2).length) := by
  constructor
  · intro ws
    exact validateWorkoutsAux_length ws 0
  · intro ws1 ws2
    rw [validateWorkoutsForUpload, validateWorkoutsForUpload, validateWorkoutsForUpload,
      validateWorkoutsAux_length, validateWorkoutsAux_length, validateWorkoutsAux_length,
      List.countP_append]

/-! ### Round-trip infrastructure (C1) -/

theorem transformSingleStep_numberOfRepeats (l : WireLeaf) :
    (transformSingleStep l).numberOfRepeats = none := rfl

theorem transformSingleStep_restTimeSeconds (l : WireLeaf) :
    (transformSingleStep l).restTimeSeconds = none := rfl

/-- The rebuilder's leaf conversion never reads `restTimeSeconds`. -/
theorem convertStep_restTime_invariant (s : WorkoutStep) (x : Option ℚ) :
    convertStepToGarminFormat { s with restTimeSeconds := x } =
      convertStepToGarminFormat s := rfl

/-- The rebuilder's leaf conversion never reads `numberOfRepeats`. -/
theorem convertStep_numberOfRepeats_invariant (s : WorkoutStep) (x : Option ℚ) :
    convertStepToGarminFormat { s with numberOfRepeats := x } =
      convertStepToGarminFormat s := rfl

/-- Stamping the (already absent) `numberOfRepeats` with `none` is a no-op. -/
theorem withRepeats_none (l : WireLeaf) :
    ({ transformSingleStep l with numberOfRepeats := none } : WorkoutStep) =
      transformSingleStep l := rfl

theorem absorbRest_of_duration (s t : WorkoutStep) (d : ℚ)
    (h : t.durationSeconds = some d) :
    absorbRest s t = { s with restTimeSeconds := some d } := by
  simp [absorbRest, h]

theorem absorbRest_numberOfRepeats (s t : WorkoutStep) :
    (absorbRest s t).numberOfRepeats = s.numberOfRepeats := by
  rw [absorbRest]
  cases t.durationSeconds with
  | some d => rfl
  | none =>
    cases t.endConditionValue with
    | some v => rfl
    | none => rfl

/-- Rest merging preserves a uniform `numberOfRepeats` value. -/
theorem mergeRest_numberOfRepeats (r : Option ℚ) :
    ∀ ms : List WorkoutStep, (∀ s ∈ ms, s.numberOfRepeats = r) →
      ∀ s ∈ mergeRestIntoExercises ms, s.numberOfRepeats = r
  | [], _, s, hs => by simp [mergeRestIntoExercises] at hs
  | [x], h, s, hs => by
    simp only [mergeRestIntoExercises, List.mem_singleton] at hs
    exact hs ▸ h x (by simp)
  | x :: y :: tl, h, s, hs => by
    rw [mergeRestIntoExercises] at hs
    by_cases hy : y.stepType = some "rest"
    · rw [if_pos hy] at hs
      rcases List.mem_cons.mp hs with rfl | hs'
      · rw [absorbRest_numberOfRepeats]
        exact h x (by simp)
      · exact mergeRest_numberOfRepeats r tl (fun t ht => h t (by simp [ht])) s hs'
    · rw [if_neg hy] at hs
      rcases List.mem_cons.mp hs with rfl | hs'
      · exact h s (by simp)
      · exact mergeRest_numberOfRepeats r (y :: tl)
          (fun t ht => h t (List.mem_cons_of_mem x ht)) s hs'

/-- Rest merging never empties a nonempty list. -/
theorem mergeRest_ne_nil : ∀ ms : List WorkoutStep, ms ≠ [] →
    mergeRestIntoExercises ms ≠ []
  | [], h => absurd rfl h
  | [x], _ => by simp [mergeRestIntoExercises]
  | x :: y :: tl, _ => by
    rw [mergeRestIntoExercises]
    by_cases hy : y.stepType = some "rest" <;> simp [hy]

theorem mergeRest_nil : mergeRestIntoExercises [] = [] := by
  simp [mergeRestIntoExercises]

theorem mergeRest_singleton (x : WorkoutStep) : mergeRestIntoExercises [x] = [x] := by
  simp [mergeRestIntoExercises]

theorem mergeRest_cons₂ (x y : WorkoutStep) (tl : List WorkoutStep) :
    mergeRestIntoExercises (x :: y :: tl) =
      if y.stepType = some "rest" then absorbRest x y :: mergeRestIntoExercises tl
      else x :: mergeRestIntoExercises (y :: tl) := by
  simp [mergeRestIntoExercises]

/-- The merge scan splits at any boundary whose right side does not start
with a rest step. -/
theorem mergeRest_append : ∀ xs ys : List WorkoutStep,
    (∀ h t, ys = h :: t → h.stepType ≠ some "rest") →
    mergeRestIntoExercises (xs ++ ys) =
      mergeRestIntoExercises xs ++ mergeRestIntoExercises ys
  | [], ys, _ => by simp [mergeRest_nil]
  | [x], ys, hys => by
    cases ys with
    | nil => simp [mergeRest_nil]
    | cons h t =>
      simp only [List.singleton_append]
      rw [mergeRest_cons₂, if_neg (hys h t rfl), mergeRest_singleton]
      rfl
  | x :: y :: tl, ys, hys => by
    by_cases hy : y.stepType = some "rest"
    · rw [List.cons_append, List.cons_append, mergeRest_cons₂, if_pos hy,
        mergeRest_cons₂, if_pos hy, mergeRest_append tl ys hys, List.cons_append]
    · rw [List.cons_append, List.cons_append, mergeRest_cons₂, if_neg hy,
        ← List.cons_append, mergeRest_append (y :: tl) ys hys, mergeRest_cons₂,
        if_neg hy, List.cons_append]

/-- A well-formed non-rest leaf never normalizes to a rest step. -/
theorem norm_basic_not_rest (l : WireLeaf) (h : wfBasicLeafB l = true) :
    (transformSingleStep l).stepType ≠ some "rest" := by
  obtain ⟨sid, sord, cid, desc, st, ex, ec, ecv, peu, tt, tv1, tv2, zn, s1, s2, s3, s4,
    wv, wu, wdu, bp, bk⟩ := l
  rcases st with _ | ⟨stid, _ | k⟩ <;>
    simp_all [wfBasicLeafB, constNullFieldsB, transformSingleStep]

/-- A canonical rest leaf normalizes to a rest step. -/
theorem norm_rest_stepType (l : WireLeaf) (h : wfRestLeafB l = true) :
    (transformSingleStep l).stepType = some "rest" := by
  obtain ⟨sid, sord, cid, desc, st, ex, ec, ecv, peu, tt, tv1, tv2, zn, s1, s2, s3, s4,
    wv, wu, wdu, bp, bk⟩ := l
  simp only [wfRestLeafB, Bool.and_eq_true, decide_eq_true_eq] at h
  simp [transformSingleStep, h.1.1.1.1.1.1.1.1.1.1.1]

set_option maxHeartbeats 4000000 in
/-- Per-leaf round trip for a well-formed non-rest leaf: rebuilding its
normalized form gives the leaf back, up to `stepOrder`. -/
theorem convert_norm_basic (l : WireLeaf) (h : wfBasicLeafB l = true) :
    eraseLeafOrder (convertStepToGarminFormat (transformSingleStep l)) =
      eraseLeafOrder l := by
  obtain ⟨sid, sord, cid, desc, st, ex, ec, ecv, peu, tt, tv1, tv2, zn, s1, s2, s3, s4,
    wv, wu, wdu, bp, bk⟩ := l
  rcases st with _ | ⟨stid, _ | k1⟩
  · simp [wfBasicLeafB, constNullFieldsB] at h
  · simp [wfBasicLeafB, constNullFieldsB] at h
  rcases tt with _ | ⟨ttid, _ | k3⟩
  · simp [wfBasicLeafB, constNullFieldsB] at h
  · simp [wfBasicLeafB, constNullFieldsB] at h
  simp only [wfBasicLeafB, constNullFieldsB, Bool.and_eq_true, decide_eq_true_eq] at h
  obtain ⟨⟨⟨⟨⟨⟨⟨⟨h1, h2⟩, h3⟩, h4⟩, h5⟩, h6⟩, h7⟩, h8⟩, h9⟩ := h
  obtain ⟨⟨⟨⟨⟨⟨⟨⟨⟨hsid, hcid⟩, hdesc⟩, hpeu⟩, hzn⟩, hs1⟩, hs2⟩, hs3⟩, hs4⟩, hwdu⟩ := h1
  obtain ⟨⟨hk1ne, hk1nr⟩, hstid⟩ := h2
  obtain ⟨hk3ne, httid⟩ := h5
  subst hsid hcid hdesc hpeu hzn hs1 hs2 hs3 hs4 hwdu hstid httid
  rcases ec with _ | ⟨ecid, _ | k2⟩ <;>
    rcases ex with _ | exn <;>
    rcases tv1 with _ | v1 <;>
    rcases tv2 with _ | v2 <;>
    rcases wv with _ | w <;>
    rcases bp with _ | p <;>
    rcases bk with _ | bks <;>
    simp_all [transformSingleStep, convertStepToGarminFormat, eraseLeafOrder, strTruthy]
  all_goals
    obtain ⟨⟨hwu, hpos⟩, hfix⟩ := h8
  all_goals subst hwu
  all_goals simp_all

/-- A canonical rest leaf of duration `d` normalizes to a rest step whose
`durationSeconds` is `d`; it equals the rebuilder's synthetic rest leaf up to
`stepOrder` and round-trips through the rebuilder. -/
theorem norm_rest_facts (l : WireLeaf) (h : wfRestLeafB l = true) :
    ∃ d : ℚ, 0 < d ∧
      (transformSingleStep l).stepType = some "rest" ∧
      (transformSingleStep l).durationSeconds = some d ∧
      eraseLeafOrder l = syntheticRestLeaf d ∧
      eraseLeafOrder (convertStepToGarminFormat (transformSingleStep l)) =
        eraseLeafOrder l := by
  obtain ⟨sid, sord, cid, desc, st, ex, ec, ecv, peu, tt, tv1, tv2, zn, s1, s2, s3, s4,
    wv, wu, wdu, bp, bk⟩ := l
  simp only [wfRestLeafB, constNullFieldsB, Bool.and_eq_true, decide_eq_true_eq] at h
  obtain ⟨⟨⟨⟨⟨⟨⟨⟨⟨⟨⟨hst, hec⟩, hecv⟩, htt⟩, htv1⟩, htv2⟩, hex⟩, hwv⟩, hwu⟩, hbp⟩, hbk⟩,
    hC⟩ := h
  obtain ⟨⟨⟨⟨⟨⟨⟨⟨⟨hsid, hcid⟩, hdesc⟩, hpeu⟩, hzn⟩, hs1⟩, hs2⟩, hs3⟩, hs4⟩, hwdu⟩ := hC
  subst hst hec htt htv1 htv2 hex hwv hwu hbp hbk
  subst hsid hcid hdesc hpeu hzn hs1 hs2 hs3 hs4 hwdu
  rcases ecv with _ | d
  · simp at hecv
  · simp only [decide_eq_true_eq] at hecv
    refine ⟨d, hecv, ?_, ?_, ?_, ?_⟩ <;>
      simp [transformSingleStep, convertStepToGarminFormat, eraseLeafOrder,
        syntheticRestLeaf, strTruthy, getStepTypeId, getEndConditionId, getTargetTypeId]

/-- Per-leaf round trip for any well-formed leaf. -/
theorem convert_norm_wf (l : WireLeaf) (h : wfLeafB l = true) :
    eraseLeafOrder (convertStepToGarminFormat (transformSingleStep l)) =
      eraseLeafOrder l := by
  rcases Bool.or_eq_true_iff.mp (by simpa [wfLeafB] using h) with hb | hr
  · exact convert_norm_basic l hb
  · exact (norm_rest_facts l hr).choose_spec.2.2.2.2

/-- A well-formed leaf that normalizes to a rest step is a canonical rest. -/
theorem wf_rest_of_norm_rest (l : WireLeaf) (h : wfLeafB l = true)
    (hr : (transformSingleStep l).stepType = some "rest") : wfRestLeafB l = true := by
  rcases Bool.or_eq_true_iff.mp (by simpa [wfLeafB] using h) with hb | hrest
  · exact absurd hr (norm_basic_not_rest l hb)
  · exact hrest

theorem norm_withNR_restTime (l : WireLeaf) (r : Option ℚ) :
    ({ transformSingleStep l with numberOfRepeats := r } : WorkoutStep).restTimeSeconds =
      none := rfl

theorem expandStep_norm (l : WireLeaf) (r : Option ℚ) :
    expandStep { transformSingleStep l with numberOfRepeats := r } =
      [convertStepToGarminFormat (transformSingleStep l)] := by
  rw [expandStep, convertStep_numberOfRepeats_invariant, norm_withNR_restTime]

theorem expandStep_with_rt (s : WorkoutStep) (d : ℚ) (hd : 0 < d) :
    expandStep { s with restTimeSeconds := some d } =
      [convertStepToGarminFormat s, syntheticRestLeaf d] := by
  simp [expandStep, convertStep_restTime_invariant, hd]

theorem expand_absorbed_norm (l : WireLeaf) (r : Option ℚ) (t : WorkoutStep) (d : ℚ)
    (hd : 0 < d) (hdur : t.durationSeconds = some d) :
    expandStep (absorbRest { transformSingleStep l with numberOfRepeats := r } t) =
      [convertStepToGarminFormat (transformSingleStep l), syntheticRestLeaf d] := by
  rw [absorbRest_of_duration _ _ d hdur, expandStep_with_rt _ d hd,
    convertStep_numberOfRepeats_invariant]

/-- Round trip for one run of leaves: normalize (stamping any repeat value),
merge rests, re-expand — the original leaves come back up to `stepOrder`. -/
theorem run_roundtrip (r : Option ℚ) : ∀ ls : List WireLeaf, ls.all wfLeafB = true →
    ((mergeRestIntoExercises
        (ls.map (fun l => { transformSingleStep l with numberOfRepeats := r }))).flatMap
      expandStep).map eraseLeafOrder = ls.map eraseLeafOrder
  | [], _ => by simp [mergeRest_nil]
  | [l], h => by
    simp only [List.all_cons, List.all_nil, Bool.and_true] at h
    simp [mergeRest_singleton, expandStep_norm, convert_norm_wf l h]
  | l1 :: l2 :: rest, h => by
    simp only [List.all_cons, Bool.and_eq_true] at h
    obtain ⟨h1, h2, hrest⟩ := h
    have hall : (l2 :: rest).all wfLeafB = true := by
      simp only [List.all_cons, Bool.and_eq_true]
      exact ⟨h2, hrest⟩
    by_cases hr2 : (transformSingleStep l2).stepType = some "rest"
    · obtain ⟨d, hd, hst2, hdur, heq, hconv⟩ :=
        norm_rest_facts l2 (wf_rest_of_norm_rest l2 h2 hr2)
      rw [List.map_cons, List.map_cons, mergeRest_cons₂,
        if_pos (show ({ transformSingleStep l2 with numberOfRepeats := r }
          : WorkoutStep).stepType = some "rest" from hr2),
        List.flatMap_cons,
        expand_absorbed_norm l1 r _ d hd
          (show ({ transformSingleStep l2 with numberOfRepeats := r }
            : WorkoutStep).durationSeconds = some d from hdur)]
      simp only [List.map_append, List.map_cons, List.map_nil]
      rw [convert_norm_wf l1 h1, run_roundtrip r rest hrest]
      rw [show eraseLeafOrder (syntheticRestLeaf d) = syntheticRestLeaf d from rfl, ← heq]
      simp
    · rw [List.map_cons, List.map_cons, mergeRest_cons₂,
        if_neg (show ¬ ({ transformSingleStep l2 with numberOfRepeats := r }
          : WorkoutStep).stepType = some "rest" from hr2),
        List.flatMap_cons, expandStep_norm]
      simp only [List.map_append, List.map_cons, List.map_nil]
      rw [convert_norm_wf l1 h1]
      have hrec := run_roundtrip r (l2 :: rest) hall
      rw [List.map_cons] at hrec
      rw [hrec]
      simp



theorem eraseStepOrderList_eq_map : ∀ ws : List WireStep,
    eraseStepOrderList ws = ws.map eraseStepOrder
  | [] => rfl
  | w :: rest => by rw [eraseStepOrderList, eraseStepOrderList_eq_map rest, List.map_cons]

theorem flattenSteps_append : ∀ xs ys : List WireStep,
    flattenSteps (xs ++ ys) = flattenSteps xs ++ flattenSteps ys
  | [], ys => by simp [flattenSteps]
  | WireStep.leaf l :: rest, ys => by
    simp only [List.cons_append, flattenSteps, flattenSteps_append rest ys]
  | WireStep.repeatGroup a n sm c children :: rest, ys => by
    simp only [List.cons_append, flattenSteps, flattenSteps_append rest ys, List.append_assoc]

theorem flattenSteps_leaves : ∀ ls : List WireLeaf,
    flattenSteps (ls.map WireStep.leaf) = ls.map transformSingleStep
  | [] => by simp [flattenSteps]
  | l :: rest => by
    simp only [List.map_cons, flattenSteps, flattenSteps_leaves rest]

theorem flattenSteps_renderRun (r : WireRun) :
    flattenSteps (renderRun r) = flatRun r := by
  cases r with
  | leavesRun ls =>
    simp only [renderRun, flatRun, runLeaves, runKey, flattenSteps_leaves]
    exact List.map_congr_left (fun l _ => (withRepeats_none l).symm)
  | groupRun a n sm c ls =>
    simp only [renderRun, flatRun, runLeaves, runKey]
    rw [show flattenSteps [WireStep.repeatGroup a n sm c (ls.map WireStep.leaf)] =
      ((flattenSteps (ls.map WireStep.leaf)).map
        (fun s => { s with numberOfRepeats := n })) ++ flattenSteps [] from by
        simp [flattenSteps]]
    rw [flattenSteps_leaves, List.map_map]
    simp [flattenSteps]

theorem flatRun_ne_nil (r : WireRun) (h : wfRunB r = true) : flatRun r ≠ [] := by
  cases r <;>
    simp_all [wfRunB, flatRun, runLeaves, Bool.and_eq_true, List.isEmpty_iff]

theorem flatRun_nr (r : WireRun) : ∀ s ∈ flatRun r, s.numberOfRepeats = runKey r := by
  intro s hs
  simp only [flatRun, List.mem_map] at hs
  obtain ⟨l, _, rfl⟩ := hs
  rfl

theorem mergedRun_ne_nil (r : WireRun) (h : wfRunB r = true) : mergedRun r ≠ [] :=
  mergeRest_ne_nil _ (flatRun_ne_nil r h)

theorem mergedRun_nr (r : WireRun) : ∀ s ∈ mergedRun r, s.numberOfRepeats = runKey r :=
  mergeRest_numberOfRepeats (runKey r) (flatRun r) (flatRun_nr r)



/-- A run whose first leaf does not normalize to rest yields a flattened
segment whose head is not a rest step. -/
theorem flatRun_head_not_rest (r : WireRun) (h : wfRunB r = true)
    (hnr : restFirstB r = false) :
    ∀ x t, flatRun r = x :: t → x.stepType ≠ some "rest" := by
  intro x t hx
  have hne := flatRun_ne_nil r h
  cases hleaves : runLeaves r with
  | nil =>
    exact absurd (by simp [flatRun, hleaves]) hne
  | cons l0 ls =>
    rw [flatRun, hleaves, List.map_cons, List.cons.injEq] at hx
    have hx0 := hx.1
    rw [restFirstB, hleaves] at hnr
    simp only [List.head?_cons, decide_eq_false_iff_not] at hnr
    rw [← hx0]
    exact hnr

/-- Merge acts run-by-run on a well-formed flattened sequence: every rest is
absorbed within its own run. -/
theorem merge_flatten_runs : ∀ rs : List WireRun,
    (∀ r ∈ rs, wfRunB r = true) →
    (∀ r ∈ rs.tail, restFirstB r = false) →
    mergeRestIntoExercises (flattenSteps (renderRuns rs)) = rs.flatMap mergedRun
  | [], _, _ => by simp [renderRuns, flattenSteps, mergeRest_nil]
  | r0 :: rest, hwf, htail => by
    rw [renderRuns, List.flatMap_cons, flattenSteps_append]
    rw [mergeRest_append _ _ ?hhead]
    case hhead =>
      intro x t hx
      cases rest with
      | nil => simp [flattenSteps] at hx
      | cons r1 rest1 =>
        rw [List.flatMap_cons, flattenSteps_append, flattenSteps_renderRun] at hx
        have hwf1 : wfRunB r1 = true := hwf r1 (by simp)
        cases hfr : flatRun r1 with
        | nil => exact absurd hfr (flatRun_ne_nil r1 hwf1)
        | cons y t1 =>
          rw [hfr, List.cons_append, List.cons.injEq] at hx
          rw [← hx.1]
          exact flatRun_head_not_rest r1 hwf1
            (by simpa using htail r1 (by simp)) y t1 hfr
    rw [flattenSteps_renderRun,
      show rest.flatMap renderRun = renderRuns rest from rfl,
      merge_flatten_runs rest (fun r hr => hwf r (List.mem_cons_of_mem r0 hr))
        (fun r hr => htail r (List.mem_of_mem_tail hr)), List.flatMap_cons]
    rfl



/-- A stretch of steps sharing the current key is appended to the current
group without opening a new one. -/
theorem groupRunsAux_uniform (curR : Option ℚ) :
    ∀ (seg : List WorkoutStep), (∀ s ∈ seg, s.numberOfRepeats = curR) →
    ∀ (cur ys : List WorkoutStep),
      groupRunsAux cur curR (seg ++ ys) = groupRunsAux (cur ++ seg) curR ys
  | [], _, cur, ys => by simp
  | s :: seg', h, cur, ys => by
    rw [List.cons_append, groupRunsAux,
      if_neg (by simp [h s (by simp)]),
      groupRunsAux_uniform curR seg' (fun t ht => h t (by simp [ht])) (cur ++ [s]) ys]
    simp

/-- Peeling one whole run off the grouping loop. -/
theorem groupRunsAux_runs : ∀ (rs : List WireRun),
    (∀ r ∈ rs, wfRunB r = true) → chainKeysB rs = true →
    ∀ (cur : List WorkoutStep) (curR : Option ℚ),
      (∀ r0 ∈ rs.head?, runKey r0 ≠ curR) →
      groupRunsAux cur curR (rs.flatMap mergedRun) = cur :: rs.map mergedRun
  | [], _, _, cur, curR, _ => by simp [groupRunsAux]
  | r0 :: rest, hwf, hchain, cur, curR, hhead => by
    have hwf0 : wfRunB r0 = true := hwf r0 (by simp)
    cases hm : mergedRun r0 with
    | nil => exact absurd hm (mergedRun_ne_nil r0 hwf0)
    | cons m0 ms =>
      have hm0 : m0.numberOfRepeats = runKey r0 :=
        mergedRun_nr r0 m0 (by rw [hm]; simp)
      rw [List.flatMap_cons, hm, List.cons_append, groupRunsAux,
        if_pos (by rw [hm0]; exact hhead r0 (by simp)), hm0,
        groupRunsAux_uniform (runKey r0) ms
          (fun t ht => mergedRun_nr r0 t (by rw [hm]; simp [ht])) [m0]
          (rest.flatMap mergedRun),
        show [m0] ++ ms = mergedRun r0 from hm.symm]
      have hchain' : chainKeysB rest = true := by
        cases rest with
        | nil => rfl
        | cons r1 rest1 =>
          rw [chainKeysB, Bool.and_eq_true] at hchain
          exact hchain.2
      have hhead' : ∀ r1 ∈ rest.head?, runKey r1 ≠ runKey r0 := by
        intro r1 hr1
        cases rest with
        | nil => simp at hr1
        | cons rh rt =>
          simp only [List.head?_cons, Option.mem_some_iff] at hr1
          subst hr1
          rw [chainKeysB, Bool.and_eq_true, decide_eq_true_eq] at hchain
          exact fun he => hchain.1 he.symm
      rw [groupRunsAux_runs rest (fun r hr => hwf r (by simp [hr])) hchain'
        (mergedRun r0) (runKey r0) hhead', List.map_cons]

/-- The rebuilder's grouping pass recovers exactly the merged runs. -/
theorem groupRuns_runs (rs : List WireRun)
    (hwf : ∀ r ∈ rs, wfRunB r = true) (hchain : chainKeysB rs = true) :
    groupRuns (rs.flatMap mergedRun) = rs.map mergedRun := by
  cases rs with
  | nil => rfl
  | cons r0 rest =>
    have hwf0 : wfRunB r0 = true := hwf r0 (by simp)
    cases hm : mergedRun r0 with
    | nil => exact absurd hm (mergedRun_ne_nil r0 hwf0)
    | cons m0 ms =>
      have hm0 : m0.numberOfRepeats = runKey r0 :=
        mergedRun_nr r0 m0 (by rw [hm]; simp)
      rw [List.flatMap_cons, hm, List.cons_append, groupRuns, hm0,
        groupRunsAux_uniform (runKey r0) ms
          (fun t ht => mergedRun_nr r0 t (by rw [hm]; simp [ht])) [m0]
          (rest.flatMap mergedRun),
        show [m0] ++ ms = mergedRun r0 from hm.symm]
      have hchain' : chainKeysB rest = true := by
        cases rest with
        | nil => rfl
        | cons r1 rest1 =>
          rw [chainKeysB, Bool.and_eq_true] at hchain
          exact hchain.2
      have hhead' : ∀ r1 ∈ rest.head?, runKey r1 ≠ runKey r0 := by
        intro r1 hr1
        cases rest with
        | nil => simp at hr1
        | cons rh rt =>
          simp only [List.head?_cons, Option.mem_some_iff] at hr1
          subst hr1
          rw [chainKeysB, Bool.and_eq_true, decide_eq_true_eq] at hchain
          exact fun he => hchain.1 he.symm
      rw [groupRunsAux_runs rest (fun r hr => hwf r (by simp [hr])) hchain'
        (mergedRun r0) (runKey r0) hhead', List.map_cons]



theorem wfRunB_all_leaves (r : WireRun) (h : wfRunB r = true) :
    (runLeaves r).all wfLeafB = true := by
  cases r <;> simp_all [wfRunB, runLeaves, Bool.and_eq_true]

/-- Rebuilding one merged run gives back the run's wire steps, up to
`stepOrder`. -/
theorem rebuildRun_mergedRun (r : WireRun) (h : wfRunB r = true) :
    (rebuildRun (mergedRun r)).map eraseStepOrder =
      (renderRun r).map eraseStepOrder := by
  have hleaves := wfRunB_all_leaves r h
  have hrt := run_roundtrip (runKey r) (runLeaves r) hleaves
  cases hm : mergedRun r with
  | nil => exact absurd hm (mergedRun_ne_nil r h)
  | cons m0 ms =>
    have hm0 : m0.numberOfRepeats = runKey r :=
      mergedRun_nr r m0 (by rw [hm]; simp)
    have hflat : ((m0 :: ms).flatMap expandStep).map eraseLeafOrder =
        (runLeaves r).map eraseLeafOrder := by
      rw [← hm]
      exact hrt
    cases r with
    | leavesRun ls =>
      rw [rebuildRun, hm0]
      simp only [runKey]
      rw [renderRun]
      rw [List.map_map, List.map_map,
        show eraseStepOrder ∘ WireStep.leaf = WireStep.leaf ∘ eraseLeafOrder from rfl,
        ← List.map_map]
      rw [show (runLeaves (WireRun.leavesRun ls)) = ls from rfl] at hflat
      rw [hflat, List.map_map]
    | groupRun a n sm c ls =>
      simp only [wfRunB, Bool.and_eq_true, decide_eq_true_eq] at h
      obtain ⟨⟨⟨⟨⟨ha, hsm⟩, hc⟩, hn⟩, hne⟩, _⟩ := h
      rcases n with _ | q
      · simp at hn
      simp only [decide_eq_true_eq] at hn
      subst ha hsm hc
      rw [rebuildRun, hm0]
      simp only [runKey]
      rw [if_pos hn, renderRun]
      simp only [List.map_cons, List.map_nil, eraseStepOrder,
        eraseStepOrderList_eq_map]
      rw [List.map_map, List.map_map,
        show eraseStepOrder ∘ WireStep.leaf = WireStep.leaf ∘ eraseLeafOrder from rfl,
        ← List.map_map, ← List.map_map]
      rw [show (runLeaves (WireRun.groupRun none (some q) false none ls)) = ls from rfl]
        at hflat
      rw [hflat, List.map_map]



/-- Rebuilding the whole merged sequence gives back the wire sequence. -/
theorem unflatten_merged_runs : ∀ rs : List WireRun,
    (∀ r ∈ rs, wfRunB r = true) → chainKeysB rs = true →
    (unflattenSteps (rs.flatMap mergedRun)).map eraseStepOrder =
      (renderRuns rs).map eraseStepOrder := by
  intro rs hwf hchain
  rw [unflattenSteps, groupRuns_runs rs hwf hchain]
  induction rs with
  | nil => rfl
  | cons r0 rest ih =>
    have hchain' : chainKeysB rest = true := by
      cases rest with
      | nil => rfl
      | cons r1 rest1 =>
        rw [chainKeysB, Bool.and_eq_true] at hchain
        exact hchain.2
    rw [List.map_cons, List.flatMap_cons, renderRuns, List.flatMap_cons,
      List.map_append, List.map_append,
      rebuildRun_mergedRun r0 (hwf r0 (by simp)),
      ih (fun r hr => hwf r (by simp [hr])) hchain']
    rfl

theorem erasePlanOrder_renumber : ∀ (ms : List WorkoutStep) (n : ℕ),
    (renumberFrom n ms).map erasePlanOrder = ms.map erasePlanOrder
  | [], _ => rfl
  | s :: rest, n => by
    rw [renumberFrom, List.map_cons, List.map_cons,
      erasePlanOrder_renumber rest (n + 1)]
    rfl

theorem erasePlanOrder_idem (s : WorkoutStep) :
    erasePlanOrder (erasePlanOrder s) = erasePlanOrder s := rfl

/-- The rebuilt leaf, with `stepOrder` erased, does not depend on the plan
step's `stepOrder`. -/
theorem erase_convert_erasePlan (s : WorkoutStep) :
    eraseLeafOrder (convertStepToGarminFormat s) =
      eraseLeafOrder (convertStepToGarminFormat (erasePlanOrder s)) := rfl

section OrderInsensitive

variable (f : WorkoutStep → WorkoutStep)

theorem orderIns_nr (hf : ∀ s, erasePlanOrder (f s) = erasePlanOrder s)
    (s : WorkoutStep) :
    (f s).numberOfRepeats = s.numberOfRepeats := by
  have h1 : (erasePlanOrder (f s)).numberOfRepeats = (f s).numberOfRepeats := rfl
  have h2 : (erasePlanOrder s).numberOfRepeats = s.numberOfRepeats := rfl
  rw [← h1, ← h2, hf]

theorem orderIns_rt (hf : ∀ s, erasePlanOrder (f s) = erasePlanOrder s)
    (s : WorkoutStep) :
    (f s).restTimeSeconds = s.restTimeSeconds := by
  have h1 : (erasePlanOrder (f s)).restTimeSeconds = (f s).restTimeSeconds := rfl
  have h2 : (erasePlanOrder s).restTimeSeconds = s.restTimeSeconds := rfl
  rw [← h1, ← h2, hf]

theorem orderIns_groupRunsAux (hf : ∀ s, erasePlanOrder (f s) = erasePlanOrder s) :
    ∀ (ms cur : List WorkoutStep) (curR : Option ℚ),
    groupRunsAux (cur.map f) curR (ms.map f) =
      (groupRunsAux cur curR ms).map (List.map f)
  | [], cur, curR => by simp [groupRunsAux]
  | s :: rest, cur, curR => by
    rw [List.map_cons, groupRunsAux, groupRunsAux, orderIns_nr f hf s]
    by_cases hnr : s.numberOfRepeats ≠ curR
    · rw [if_pos hnr, if_pos hnr, List.map_cons,
        show [f s] = [s].map f from rfl, orderIns_groupRunsAux hf rest [s] _]
    · rw [if_neg hnr, if_neg hnr,
        show cur.map f ++ [f s] = (cur ++ [s]).map f from by simp,
        orderIns_groupRunsAux hf rest (cur ++ [s]) curR]

theorem orderIns_groupRuns (hf : ∀ s, erasePlanOrder (f s) = erasePlanOrder s)
    (ms : List WorkoutStep) :
    groupRuns (ms.map f) = (groupRuns ms).map (List.map f) := by
  cases ms with
  | nil => rfl
  | cons s rest =>
    rw [List.map_cons, groupRuns, groupRuns, orderIns_nr f hf s,
      show [f s] = [s].map f from rfl, orderIns_groupRunsAux f hf rest [s] _]

theorem orderIns_erase_convert (hf : ∀ s, erasePlanOrder (f s) = erasePlanOrder s)
    (s : WorkoutStep) :
    eraseLeafOrder (convertStepToGarminFormat (f s)) =
      eraseLeafOrder (convertStepToGarminFormat s) := by
  rw [erase_convert_erasePlan (f s), hf s, ← erase_convert_erasePlan s]

theorem orderIns_expand (hf : ∀ s, erasePlanOrder (f s) = erasePlanOrder s)
    (s : WorkoutStep) :
    (expandStep (f s)).map eraseLeafOrder = (expandStep s).map eraseLeafOrder := by
  rw [expandStep, expandStep, List.map_cons, List.map_cons,
    orderIns_erase_convert f hf s, orderIns_rt f hf s]

theorem orderIns_flatMap_expand (hf : ∀ s, erasePlanOrder (f s) = erasePlanOrder s) :
    ∀ g : List WorkoutStep,
    ((g.map f).flatMap expandStep).map eraseLeafOrder =
      (g.flatMap expandStep).map eraseLeafOrder
  | [] => rfl
  | s :: rest => by
    rw [List.map_cons, List.flatMap_cons, List.flatMap_cons, List.map_append,
      List.map_append, orderIns_expand f hf s, orderIns_flatMap_expand hf rest]

theorem rebuild_wrap_erase (k : Option ℚ) (g1 g2 : List WireLeaf)
    (hg : g1.map eraseLeafOrder = g2.map eraseLeafOrder) :
    (match k with
     | some n =>
       if n > 1 then
         [WireStep.repeatGroup none (some n) false none (g1.map WireStep.leaf)]
       else g1.map WireStep.leaf
     | none => g1.map WireStep.leaf).map eraseStepOrder =
    (match k with
     | some n =>
       if n > 1 then
         [WireStep.repeatGroup none (some n) false none (g2.map WireStep.leaf)]
       else g2.map WireStep.leaf
     | none => g2.map WireStep.leaf).map eraseStepOrder := by
  have hleaf : (g1.map WireStep.leaf).map eraseStepOrder =
      (g2.map WireStep.leaf).map eraseStepOrder := by
    rw [List.map_map, List.map_map,
      show eraseStepOrder ∘ WireStep.leaf = WireStep.leaf ∘ eraseLeafOrder from rfl,
      ← List.map_map, ← List.map_map, hg]
  cases k with
  | none => exact hleaf
  | some n =>
    show (if n > 1 then
        [WireStep.repeatGroup none (some n) false none (g1.map WireStep.leaf)]
      else g1.map WireStep.leaf).map eraseStepOrder =
      (if n > 1 then
        [WireStep.repeatGroup none (some n) false none (g2.map WireStep.leaf)]
      else g2.map WireStep.leaf).map eraseStepOrder
    by_cases hn : n > 1
    · rw [if_pos hn, if_pos hn]
      simp only [List.map_cons, List.map_nil, eraseStepOrder,
        eraseStepOrderList_eq_map]
      rw [hleaf]
    · rw [if_neg hn, if_neg hn]
      exact hleaf

theorem orderIns_rebuildRun (hf : ∀ s, erasePlanOrder (f s) = erasePlanOrder s)
    (g : List WorkoutStep) :
    (rebuildRun (g.map f)).map eraseStepOrder = (rebuildRun g).map eraseStepOrder := by
  cases g with
  | nil => rfl
  | cons m0 ms =>
    rw [List.map_cons, rebuildRun, rebuildRun, orderIns_nr f hf m0]
    exact rebuild_wrap_erase m0.numberOfRepeats _ _
      (orderIns_flatMap_expand f hf (m0 :: ms))

theorem orderIns_unflatten (hf : ∀ s, erasePlanOrder (f s) = erasePlanOrder s)
    (ms : List WorkoutStep) :
    (unflattenSteps (ms.map f)).map eraseStepOrder =
      (unflattenSteps ms).map eraseStepOrder := by
  rw [unflattenSteps, unflattenSteps, orderIns_groupRuns f hf ms]
  induction groupRuns ms with
  | nil => rfl
  | cons g gs ih =>
    rw [List.map_cons, List.flatMap_cons, List.flatMap_cons, List.map_append,
      List.map_append, orderIns_rebuildRun f hf g, ih]

end OrderInsensitive

/-- Renumbering does not change the rebuilt wire sequence up to `stepOrder`. -/
theorem unflatten_renumber (ms : List WorkoutStep) :
    (unflattenSteps (renumberFrom 0 ms)).map eraseStepOrder =
      (unflattenSteps ms).map eraseStepOrder := by
  have hf : ∀ s, erasePlanOrder (erasePlanOrder s) = erasePlanOrder s :=
    erasePlanOrder_idem
  calc (unflattenSteps (renumberFrom 0 ms)).map eraseStepOrder
      = (unflattenSteps ((renumberFrom 0 ms).map erasePlanOrder)).map eraseStepOrder :=
        (orderIns_unflatten erasePlanOrder hf (renumberFrom 0 ms)).symm
    _ = (unflattenSteps (ms.map erasePlanOrder)).map eraseStepOrder := by
        rw [erasePlanOrder_renumber ms 0]
    _ = (unflattenSteps ms).map eraseStepOrder := orderIns_unflatten erasePlanOrder hf ms



/-- C1 (amended): on well-formed wire sequences — runs of leaves and
repeat-groups-of-leaves in which every rest leaf is a canonical rest, leaf
codings are consistent, repeat-groups have more than one iteration and
nonempty leaf children, adjacent runs have distinct keys, and no run after
the first starts with a rest — `Rebuild (Merge (Flatten W))` returns `W`
itself, up to `stepOrder` fields on both sides (the rebuilder emits the
renumbered plan orders, or null on synthetic rests, rather than always
null). -/
theorem C1_round_trip (rs : List WireRun) (h : wfRunsB rs = true) :
    (unflattenSteps (transformWorkoutSteps (renderRuns rs))).map eraseStepOrder =
      (renderRuns rs).map eraseStepOrder := by
  simp only [wfRunsB, Bool.and_eq_true] at h
  obtain ⟨⟨hall, hchain⟩, htail⟩ := h
  have hwf : ∀ r ∈ rs, wfRunB r = true := by
    intro r hr
    exact List.all_eq_true.mp hall r hr
  have htail' : ∀ r ∈ rs.tail, restFirstB r = false := by
    cases rs with
    | nil => intro r hr; simp at hr
    | cons r0 rest =>
      intro r hr
      have := List.all_eq_true.mp htail r hr
      simpa using this
  rw [transformWorkoutSteps, unflatten_renumber, merge_flatten_runs rs hwf htail']
  exact unflatten_merged_runs rs hwf hchain

/-- C1 witness: the concrete two-run sequence round-trips. -/
theorem C1_round_trip_witness :
    wfRunsB roundTripExampleRuns = true ∧
    (unflattenSteps (transformWorkoutSteps (renderRuns roundTripExampleRuns))).map
        eraseStepOrder = (renderRuns roundTripExampleRuns).map eraseStepOrder :=
  ⟨by decide, C1_round_trip roundTripExampleRuns (by decide)⟩

theorem unflatten_single_norepeat (s : WorkoutStep)
    (h1 : s.numberOfRepeats = some 1) (h2 : s.restTimeSeconds = none) :
    unflattenSteps [s] = [WireStep.leaf (convertStepToGarminFormat s)] := by
  rw [unflattenSteps, groupRuns, groupRunsAux, List.flatMap_cons, List.flatMap_nil,
    rebuildRun, h1]
  show (if (1 : ℚ) > 1 then
      [WireStep.repeatGroup none (some 1) false none
        (([s].flatMap expandStep).map WireStep.leaf)]
    else ([s].flatMap expandStep).map WireStep.leaf) ++ [] =
    [WireStep.leaf (convertStepToGarminFormat s)]
  rw [if_neg (by norm_num)]
  simp [expandStep, h2]

/-- C1 counterexample: a repeat-group with `numberOfIterations = 1` does not
round-trip — the rebuilder only re-wraps runs whose count exceeds 1, so the
group node is lost (the claim as stated, for every wire sequence, is
false). -/
theorem C1_round_trip_counterexample :
    (unflattenSteps (transformWorkoutSteps
        [WireStep.repeatGroup none (some 1) false none
          [WireStep.leaf wireInterval]])).map eraseStepOrder ≠
      [WireStep.repeatGroup none (some 1) false none
        [WireStep.leaf wireInterval]].map eraseStepOrder := by
  intro hEq
  have h1 : flattenSteps [WireStep.repeatGroup none (some 1) false none
      [WireStep.leaf wireInterval]] =
      [{ transformSingleStep wireInterval with numberOfRepeats := some 1 }] := by
    simp [flattenSteps]
  rw [transformWorkoutSteps, h1, mergeRest_singleton] at hEq
  simp only [renumberFrom] at hEq
  rw [unflatten_single_norepeat _ rfl rfl] at hEq
  simp only [List.map_cons, List.map_nil, eraseStepOrder] at hEq
  exact absurd hEq (by simp)

end GarminWE
